import Mathlib

/-!
Shallow embedding of the versioned-attribute layer of ripplebase
(src/ripplebase/account/dao.py): AccountDAO limits versioning,
ExchangeRateDAO value versioning, and ExchangeDAO rate-assignment
versioning, together with the update/filter/getattr/setattr paths
built on them.

The generic DAO base class (ripplebase/db.py) and the table/mapper
declarations (ripplebase/account/tables.py, mappers.py) are not part of
the sources; where their behaviour is load-bearing it is modelled from
the specification and marked as such in the doc comment of the
definition.
-/

namespace Ripplebase

/-- Dynamic attribute values, mirroring the Python values flowing through
the DAOs: None, integers (limits, balances, rate values), strings
(names, keys) and logical timestamps. -/
inductive Value
  | vnone
  | vint (i : Int)
  | vstr (s : String)
  | vtime (t : Nat)
  deriving DecidableEq, Repr

/-! ## AccountDAO: versioned limits -/

/-- One AccountLimits row: upper and lower limit, effective and expiry
time, active flag.  The back-reference to the parent account is implicit:
an AccountDAOState keeps the list of AccountLimits rows of its own
account. -/
structure AccountLimits where
  upper_limit : Value
  lower_limit : Value
  effective_time : Value
  expiry_time : Value
  is_active : Bool
  deriving DecidableEq, Repr

/-- Modelled from the spec: the AccountLimits table declaration
(tables.py, absent from the sources) defaults a fresh version row to
is_active = true and effective_time = the operation's logical time,
other columns null. -/
def freshLimits (now : Nat) : AccountLimits :=
  { upper_limit := .vnone, lower_limit := .vnone,
    effective_time := .vtime now, expiry_time := .vnone, is_active := true }

/-- Columns of the AccountLimits record that limits_map can target. -/
inductive LimitsCol
  | upper_limit | lower_limit | effective_time | expiry_time
  deriving DecidableEq, Repr

def getLimitsCol (r : AccountLimits) : LimitsCol → Value
  | .upper_limit => r.upper_limit
  | .lower_limit => r.lower_limit
  | .effective_time => r.effective_time
  | .expiry_time => r.expiry_time

def setLimitsCol (r : AccountLimits) : LimitsCol → Value → AccountLimits
  | .upper_limit, v => { r with upper_limit := v }
  | .lower_limit, v => { r with lower_limit := v }
  | .effective_time, v => { r with effective_time := v }
  | .expiry_time, v => { r with expiry_time := v }

/-- Logical fields of AccountDAO (db_fields of the source).  The four
limits fields map to None there and are routed through limits_map; the
rest are direct columns of the account row. -/
inductive AccField
  | name | relationship | node | acct_is_active | balance
  | upper_limit | lower_limit | limits_effective_time | limits_expiry_time
  deriving DecidableEq, Repr

/-- limits_map of AccountDAO: logical field name to AccountLimits column. -/
def limits_map : AccField → Option LimitsCol
  | .upper_limit => some .upper_limit
  | .lower_limit => some .lower_limit
  | .limits_effective_time => some .effective_time
  | .limits_expiry_time => some .expiry_time
  | _ => none

/-- Direct columns of the account row itself. -/
structure AccountRow where
  name : Value
  relationship : Value
  node : Value
  acct_is_active : Value
  balance : Value
  deriving DecidableEq, Repr

def getRowField (r : AccountRow) : AccField → Value
  | .name => r.name
  | .relationship => r.relationship
  | .node => r.node
  | .acct_is_active => r.acct_is_active
  | .balance => r.balance
  | _ => .vnone

def setRowField (r : AccountRow) : AccField → Value → AccountRow
  | .name, v => { r with name := v }
  | .relationship, v => { r with relationship := v }
  | .node, v => { r with node := v }
  | .acct_is_active, v => { r with acct_is_active := v }
  | .balance, v => { r with balance := v }
  | _, _ => r

/-- State of one AccountDAO instance over its account: the direct row,
the AccountLimits rows of this account in insertion order, the lazily
cached resolution of the active limits row (the hidden attribute of the
source: missing / resolved-to-none / resolved-to-index), and the
operation's logical clock. -/
structure AccountDAOState where
  row : AccountRow
  versions : List AccountLimits
  cache : Option (Option Nat)
  now : Nat
  deriving DecidableEq, Repr

/-- The storage query filter_by(account = self, is_active = True).first():
index of the first active row, if any. -/
def findActive (vs : List AccountLimits) : Option Nat :=
  vs.findIdx? (·.is_active)

/-- AccountDAO limits property getter: if the instance has not resolved
the active limits yet, query the first active row and cache the result;
otherwise return the cached resolution. -/
def getActiveLimits (s : AccountDAOState) : AccountDAOState × Option Nat :=
  match s.cache with
  | some r => (s, r)
  | none =>
      let r := findActive s.versions
      ({ s with cache := some r }, r)

/-- The attrs_to_copy loop of new_limits: limits_map.values() with only
effective_time removed, i.e. upper_limit, lower_limit and expiry_time
are copied from the old row onto the fresh one. -/
def copyLimits (old fresh : AccountLimits) : AccountLimits :=
  { fresh with upper_limit := old.upper_limit,
               lower_limit := old.lower_limit,
               expiry_time := old.expiry_time }

/-- AccountDAO.new_limits: if an active limits row exists, flag it
inactive and create a new row copying every limits_map column except
effective_time from it; otherwise just create a fresh row.  The new row
becomes the cached active limits. -/
def new_limits (s : AccountDAOState) : AccountDAOState :=
  let p := getActiveLimits s
  let s1 := p.1
  match p.2.bind (fun i => (s1.versions[i]?).map (fun old => (i, old))) with
  | some iold =>
      let vs := s1.versions.set iold.1 { iold.2 with is_active := false }
      { s1 with versions := vs ++ [copyLimits iold.2 (freshLimits s1.now)],
                cache := some (some vs.length) }
  | none =>
      { s1 with versions := s1.versions ++ [freshLimits s1.now],
                cache := some (some s1.versions.length) }

/-- Write the column through the cached active limits row (the setattr
on self.limits after the property has been resolved). -/
def setOnCachedLimits (s : AccountDAOState) (col : LimitsCol) (v : Value) :
    AccountDAOState :=
  match s.cache with
  | some (some i) =>
      match s.versions[i]? with
      | some r => { s with versions := s.versions.set i (setLimitsCol r col v) }
      | none => s
  | _ => s

/-- AccountDAO setattr: a limits_map field first forces an active limits
row into existence (new_limits when none exists) and then writes the
mapped column on it; any other field writes the direct row. -/
def accountSetattr (s : AccountDAOState) (f : AccField) (v : Value) :
    AccountDAOState :=
  match limits_map f with
  | some col =>
      let p := getActiveLimits s
      let s1 := if p.2.isSome then p.1 else new_limits p.1
      setOnCachedLimits s1 col v
  | none => { s with row := setRowField s.row f v }

/-- AccountDAO getattr: a limits_map field reads the mapped column of
the active limits row, or None when no such row exists; any other field
reads the direct row. -/
def accountGetattr (s : AccountDAOState) (f : AccField) :
    AccountDAOState × Value :=
  match limits_map f with
  | some col =>
      let p := getActiveLimits s
      match p.2.bind (fun i => p.1.versions[i]?) with
      | some r => (p.1, getLimitsCol r col)
      | none => (p.1, .vnone)
  | none => (s, getRowField s.row f)

/-- Did the update or filter call name any limits_map field? -/
def touchesLimits (args : List (AccField × Value)) : Bool :=
  args.any (fun a => (limits_map a.1).isSome)

/-- Modelled from the spec: the generic update of the DAO base class
(ripplebase/db.py, absent from the sources) applies each supplied field
through the DAO's attribute write. -/
def genericAccountApply (s : AccountDAOState) (args : List (AccField × Value)) :
    AccountDAOState :=
  args.foldl (fun s a => accountSetattr s a.1 a.2) s

/-- AccountDAO.update: create one new limits row first when any limits
field is being changed, then apply all fields generically. -/
def accountUpdate (s : AccountDAOState) (args : List (AccField × Value)) :
    AccountDAOState :=
  let s1 := if touchesLimits args then new_limits s else s
  genericAccountApply s1 args

/-- Modelled from the spec: the generic filter of the DAO base class
(ripplebase/db.py, absent from the sources) pushes each criterion to
storage as an equality predicate on a direct column. -/
def genericAccountFilter (rows : List AccountRow)
    (args : List (AccField × Value)) : List AccountRow :=
  rows.filter (fun r => args.all (fun a => getRowField r a.1 == a.2))

/-- AccountDAO.filter: raise when any limits field appears among the
criteria, otherwise delegate to the generic filter. -/
def accountFilter (rows : List AccountRow) (args : List (AccField × Value)) :
    Except String (List AccountRow) :=
  if touchesLimits args then
    .error "Limits fields not implemented in filter"
  else
    .ok (genericAccountFilter rows args)

/-- Number of active rows among a list of AccountLimits rows. -/
def activeCount (vs : List AccountLimits) : Nat :=
  (vs.filter (·.is_active)).length

/-- Number of inactive rows among a list of AccountLimits rows. -/
def inactiveCount (vs : List AccountLimits) : Nat :=
  (vs.filter (fun v => !v.is_active)).length

/-! ## ExchangeRateDAO: versioned rate value -/

/-- One ExchangeRateValue row: the rate value, effective and expiry
time, active flag.  The back-reference to the parent ExchangeRate is
implicit in the per-parent list. -/
structure ExchangeRateValue where
  value : Value
  effective_time : Value
  expiry_time : Value
  is_active : Bool
  deriving DecidableEq, Repr

/-- Modelled from the spec: the ExchangeRateValue table declaration
(tables.py, absent from the sources) defaults a fresh version row to
is_active = true and effective_time = the operation's logical time,
other columns null. -/
def freshValue (now : Nat) : ExchangeRateValue :=
  { value := .vnone, effective_time := .vtime now,
    expiry_time := .vnone, is_active := true }

/-- Columns of the ExchangeRateValue record that value_map can target. -/
inductive ValueCol
  | value | effective_time | expiry_time
  deriving DecidableEq, Repr

def getValueCol (r : ExchangeRateValue) : ValueCol → Value
  | .value => r.value
  | .effective_time => r.effective_time
  | .expiry_time => r.expiry_time

def setValueCol (r : ExchangeRateValue) : ValueCol → Value → ExchangeRateValue
  | .value, v => { r with value := v }
  | .effective_time, v => { r with effective_time := v }
  | .expiry_time, v => { r with expiry_time := v }

/-- Logical fields of ExchangeRateDAO (db_fields of the source): name
and client are direct, rate / effective_time / expiry_time are routed
through value_map. -/
inductive RateField
  | name | client | rate | effective_time | expiry_time
  deriving DecidableEq, Repr

/-- value_map of ExchangeRateDAO: logical field name to
ExchangeRateValue column. -/
def value_map : RateField → Option ValueCol
  | .rate => some .value
  | .effective_time => some .effective_time
  | .expiry_time => some .expiry_time
  | _ => none

/-- Direct columns of the exchange_rate row itself. -/
structure ExchangeRateRow where
  name : Value
  client : Value
  deriving DecidableEq, Repr

def getRateRowField (r : ExchangeRateRow) : RateField → Value
  | .name => r.name
  | .client => r.client
  | _ => .vnone

def setRateRowField (r : ExchangeRateRow) : RateField → Value → ExchangeRateRow
  | .name, v => { r with name := v }
  | .client, v => { r with client := v }
  | _, _ => r

/-- State of one ExchangeRateDAO instance: direct row, the
ExchangeRateValue rows of this parent in insertion order, the lazily
cached resolution of the active value row, and the logical clock. -/
structure RateDAOState where
  row : ExchangeRateRow
  versions : List ExchangeRateValue
  cache : Option (Option Nat)
  now : Nat
  deriving DecidableEq, Repr

/-- The storage query filter_by(rate = self, is_active = True).first(). -/
def findActiveValue (vs : List ExchangeRateValue) : Option Nat :=
  vs.findIdx? (·.is_active)

/-- ExchangeRateDAO value property getter, with the same lazy instance
cache as the limits getter. -/
def getActiveValue (s : RateDAOState) : RateDAOState × Option Nat :=
  match s.cache with
  | some r => (s, r)
  | none =>
      let r := findActiveValue s.versions
      ({ s with cache := some r }, r)

/-- ExchangeRateDAO.new_value: if an active value row exists, flag it
inactive; create a fresh row (no column is copied from the old row) and
make it the cached active value. -/
def new_value (s : RateDAOState) : RateDAOState :=
  let p := getActiveValue s
  let s1 := p.1
  match p.2.bind (fun i => (s1.versions[i]?).map (fun old => (i, old))) with
  | some iold =>
      let vs := s1.versions.set iold.1 { iold.2 with is_active := false }
      { s1 with versions := vs ++ [freshValue s1.now],
                cache := some (some vs.length) }
  | none =>
      { s1 with versions := s1.versions ++ [freshValue s1.now],
                cache := some (some s1.versions.length) }

/-- Write the column through the cached active value row. -/
def setOnCachedValue (s : RateDAOState) (col : ValueCol) (v : Value) :
    RateDAOState :=
  match s.cache with
  | some (some i) =>
      match s.versions[i]? with
      | some r => { s with versions := s.versions.set i (setValueCol r col v) }
      | none => s
  | _ => s

/-- ExchangeRateDAO setattr: value_map fields force an active value row
into existence and write the mapped column on it; other fields write
the direct row. -/
def rateSetattr (s : RateDAOState) (f : RateField) (v : Value) :
    RateDAOState :=
  match value_map f with
  | some col =>
      let p := getActiveValue s
      let s1 := if p.2.isSome then p.1 else new_value p.1
      setOnCachedValue s1 col v
  | none => { s with row := setRateRowField s.row f v }

/-- ExchangeRateDAO getattr: value_map fields read the mapped column of
the active value row, or None when no such row exists. -/
def rateGetattr (s : RateDAOState) (f : RateField) :
    RateDAOState × Value :=
  match value_map f with
  | some col =>
      let p := getActiveValue s
      match p.2.bind (fun i => p.1.versions[i]?) with
      | some r => (p.1, getValueCol r col)
      | none => (p.1, .vnone)
  | none => (s, getRateRowField s.row f)

/-- Did the update or filter call name any value_map field? -/
def touchesValue (args : List (RateField × Value)) : Bool :=
  args.any (fun a => (value_map a.1).isSome)

/-- Modelled from the spec: generic update applies each supplied field
through the DAO's attribute write (ripplebase/db.py absent). -/
def genericRateApply (s : RateDAOState) (args : List (RateField × Value)) :
    RateDAOState :=
  args.foldl (fun s a => rateSetattr s a.1 a.2) s

/-- ExchangeRateDAO.update: create one new value row first when any
value field is being changed, then apply all fields generically. -/
def rateUpdate (s : RateDAOState) (args : List (RateField × Value)) :
    RateDAOState :=
  let s1 := if touchesValue args then new_value s else s
  genericRateApply s1 args

/-- Modelled from the spec: generic filter pushes equality predicates
on direct columns (ripplebase/db.py absent). -/
def genericRateFilter (rows : List ExchangeRateRow)
    (args : List (RateField × Value)) : List ExchangeRateRow :=
  rows.filter (fun r => args.all (fun a => getRateRowField r a.1 == a.2))

/-- ExchangeRateDAO.filter: raise when any value field appears among
the criteria, otherwise delegate to the generic filter. -/
def rateFilter (rows : List ExchangeRateRow) (args : List (RateField × Value)) :
    Except String (List ExchangeRateRow) :=
  if touchesValue args then
    .error "Value fields not implemented in filter"
  else
    .ok (genericRateFilter rows args)

/-- Number of active rows among ExchangeRateValue rows. -/
def activeValueCount (vs : List ExchangeRateValue) : Nat :=
  (vs.filter (·.is_active)).length

/-- Number of inactive rows among ExchangeRateValue rows. -/
def inactiveValueCount (vs : List ExchangeRateValue) : Nat :=
  (vs.filter (fun v => !v.is_active)).length

/-! ## ExchangeDAO: versioned rate assignment -/

/-- A row of the exchange_rate table as seen by ExchangeDAO: storage id
and name. -/
structure RateRow where
  id : Nat
  name : String
  deriving DecidableEq, Repr

/-- A row of the exchange_exchange_rate association table: parent
exchange id, referenced rate id, active flag. -/
structure EERRow where
  exchange_id : Nat
  rate_id : Nat
  is_active : Bool
  deriving DecidableEq, Repr

/-- State seen by one ExchangeDAO instance: its exchange's storage id,
the exchange_rate table and the exchange_exchange_rate association
table (insertion order).  There is no instance cache: the source
re-queries on every access. -/
structure ExchangeState where
  exchange_id : Nat
  rate_rows : List RateRow
  eer_rows : List EERRow
  deriving DecidableEq, Repr

/-- ExchangeDAO helper: filter_by(exchange = self, is_active =
True).first(), the index of the first active association row of this
exchange.  Re-evaluated on each call; nothing is cached. -/
def getActiveEER (s : ExchangeState) : Option Nat :=
  s.eer_rows.findIdx? (fun e => e.exchange_id == s.exchange_id && e.is_active)

/-- Rows produced by the select in ExchangeDAO getattr for rate.  The
source builds exchange_rate_table.join(exchange_exchange_rate_table,
eer.exchange_id == self.id, eer.is_active == True); the third positional
argument of Table.join is isouter, so the is_active comparison is not a
join condition: the statement is a LEFT OUTER JOIN whose only condition
is eer.exchange_id == self.id, and no condition links rate rows to
association rows by rate id.  Each rate row is paired with every
association row of this exchange, or kept alone when there is none. -/
def rateJoinRows (s : ExchangeState) : List RateRow :=
  s.rate_rows.flatMap (fun r =>
    let ms := s.eer_rows.filter (fun e => e.exchange_id == s.exchange_id)
    if ms.isEmpty then [r] else ms.map (fun _ => r))

/-- ExchangeDAO getattr for rate: fetch the first row of the join and
subscript it for the rate name; when the result set is empty,
fetchone() returns None and the subscript raises. -/
def exchangeGetRate (s : ExchangeState) : Except String String :=
  match (rateJoinRows s).head? with
  | some r => .ok r.name
  | none => .error "TypeError: NoneType object is not subscriptable"

/-- Modelled from the spec: the generic get of the DAO base class
(ripplebase/db.py, absent from the sources) looks an entity up by its
natural key and fails when the key is absent.  ExchangeRateDAO.get
resolves an exchange_rate row by name. -/
def exchangeRateGet (rows : List RateRow) (name : String) : Option RateRow :=
  rows.find? (fun r => r.name == name)

/-- Flag the association row at the given index inactive. -/
def deactivateEERAt (rows : List EERRow) (i : Nat) : List EERRow :=
  match rows[i]? with
  | some e => rows.set i { e with is_active := false }
  | none => rows

/-- ExchangeDAO setattr for rate: first resolve the named rate through
ExchangeRateDAO.get (raising when it does not exist, before anything is
touched), then flag the current active association row (if any)
inactive and insert a new association row pointing at the resolved
rate.  Modelled from the spec: the new row's is_active = true default
comes from the table declaration (tables.py absent). -/
def exchangeSetRate (s : ExchangeState) (name : String) :
    Except String ExchangeState :=
  match exchangeRateGet s.rate_rows name with
  | none => .error "NotFound"
  | some r =>
      let eer1 :=
        match getActiveEER s with
        | some i => deactivateEERAt s.eer_rows i
        | none => s.eer_rows
      .ok { s with eer_rows := eer1 ++ [⟨s.exchange_id, r.id, true⟩] }

/-- Fields that ExchangeDAO.filter can be called with. -/
inductive ExchField
  | source_account | target_account | rate
  deriving DecidableEq, Repr

/-- Direct columns of the exchange row. -/
structure ExchangeRow where
  source_account : Value
  target_account : Value
  deriving DecidableEq, Repr

def getExchRowField (r : ExchangeRow) : ExchField → Value
  | .source_account => r.source_account
  | .target_account => r.target_account
  | .rate => .vnone

/-- Modelled from the spec: generic filter pushes equality predicates
on direct columns (ripplebase/db.py absent). -/
def genericExchangeFilter (rows : List ExchangeRow)
    (args : List (ExchField × Value)) : List ExchangeRow :=
  rows.filter (fun r => args.all (fun a => getExchRowField r a.1 == a.2))

/-- ExchangeDAO.filter: raise when the rate key appears among the
criteria, otherwise delegate to the generic filter. -/
def exchangeFilter (rows : List ExchangeRow) (args : List (ExchField × Value)) :
    Except String (List ExchangeRow) :=
  if args.any (fun a => a.1 == ExchField.rate) then
    .error "Rate field not implemented in filter"
  else
    .ok (genericExchangeFilter rows args)

/-- Association rows of a given exchange. -/
def eerOf (s : ExchangeState) : List EERRow :=
  s.eer_rows.filter (fun e => e.exchange_id == s.exchange_id)

/-- Number of active association rows of a given exchange. -/
def activeEERCount (s : ExchangeState) : Nat :=
  ((eerOf s).filter (·.is_active)).length

/-- Number of inactive association rows of a given exchange. -/
def inactiveEERCount (s : ExchangeState) : Nat :=
  ((eerOf s).filter (fun e => !e.is_active)).length

/-! ## General list helpers -/

/-- Setting an index to the value it already holds leaves the list
unchanged. -/
theorem set_of_getElem_eq {α : Type} : ∀ (l : List α) (i : Nat) (x : α),
    l[i]? = some x → l.set i x = l
  | [], _, _, h => by simp at h
  | a :: t, 0, x, h => by simp_all
  | a :: t, i + 1, x, h => by
      simp only [List.getElem?_cons_succ] at h
      simp [List.set, set_of_getElem_eq t i x h]

/-- Setting the element just past a block of replicated entries. -/
theorem set_replicate_append {α : Type} (a b c : α) :
    ∀ n, (List.replicate n a ++ [b]).set n c = List.replicate n a ++ [c]
  | 0 => rfl
  | n + 1 => by
      simp only [List.replicate_succ, List.cons_append, List.set, List.append_eq]
      rw [set_replicate_append a b c n]

/-- A predicate whose image over a list is a block of false entries
followed by true is first satisfied exactly after the block. -/
theorem findIdx?_of_map_flags {α : Type} (p : α → Bool) :
    ∀ (l : List α) (n : Nat),
    l.map p = List.replicate n false ++ [true] → l.findIdx? p = some n := by
  intro l
  induction l with
  | nil =>
      intro n h
      exact absurd h.symm (by simp)
  | cons a t ih =>
      intro n h
      cases n with
      | zero =>
          simp only [List.replicate, List.nil_append, List.map_cons] at h
          have ha : p a = true := (List.cons.injEq _ _ _ _ ▸ h).1
          simp [List.findIdx?_cons, ha]
      | succ m =>
          simp only [List.replicate_succ, List.cons_append, List.map_cons] at h
          have ha : p a = false := (List.cons.injEq _ _ _ _ ▸ h).1
          have ht := (List.cons.injEq _ _ _ _ ▸ h).2
          simp [List.findIdx?_cons, ha, List.findIdx?_succ, ih m ht]

/-- Counting the true entries of a block of false entries followed by
one true. -/
theorem countP_flags_true (n : Nat) :
    (List.replicate n false ++ [true]).countP (fun b => b) = 1 := by
  simp [List.countP_append, List.countP_replicate]

/-- Counting the false entries of a block of false entries followed by
one true. -/
theorem countP_flags_false (n : Nat) :
    (List.replicate n false ++ [true]).countP (fun b => !b) = n := by
  simp [List.countP_append, List.countP_replicate]

/-! ## AccountDAO helper lemmas -/

theorem getActiveLimits_of_cache {s : AccountDAOState} {r : Option Nat}
    (h : s.cache = some r) : getActiveLimits s = (s, r) := by
  simp [getActiveLimits, h]

theorem getActiveLimits_resolved (s : AccountDAOState) :
    (getActiveLimits s).1.cache = some (getActiveLimits s).2 := by
  unfold getActiveLimits
  cases h : s.cache <;> simp [h]

theorem getActiveLimits_versions (s : AccountDAOState) :
    (getActiveLimits s).1.versions = s.versions := by
  unfold getActiveLimits
  cases h : s.cache <;> simp [h]

theorem setLimitsCol_is_active (r : AccountLimits) (col : LimitsCol) (v : Value) :
    (setLimitsCol r col v).is_active = r.is_active := by
  cases col <;> rfl

theorem setOnCachedLimits_flags (s : AccountDAOState) (col : LimitsCol) (v : Value) :
    (setOnCachedLimits s col v).versions.map (·.is_active) =
      s.versions.map (·.is_active) := by
  unfold setOnCachedLimits
  split
  · next i hc =>
      split
      · next r hr =>
          simp only [List.map_set, setLimitsCol_is_active]
          exact set_of_getElem_eq _ i _ (by rw [List.getElem?_map, hr]; rfl)
      · rfl
  · rfl

theorem setOnCachedLimits_cache (s : AccountDAOState) (col : LimitsCol) (v : Value) :
    (setOnCachedLimits s col v).cache = s.cache := by
  unfold setOnCachedLimits
  split
  · split <;> rfl
  · rfl

theorem accountSetattr_of_cached {s : AccountDAOState} {i : Nat}
    (h : s.cache = some (some i)) (f : AccField) (v : Value) :
    (accountSetattr s f v).versions.map (·.is_active) =
        s.versions.map (·.is_active)
    ∧ (accountSetattr s f v).cache = s.cache := by
  unfold accountSetattr
  split
  · rw [getActiveLimits_of_cache h]
    simp only [h, Option.isSome_some, if_pos]
    exact ⟨setOnCachedLimits_flags s _ v, (setOnCachedLimits_cache s _ v).trans h⟩
  · exact ⟨rfl, rfl⟩

theorem genericAccountApply_of_cached :
    ∀ (args : List (AccField × Value)) (s : AccountDAOState) {i : Nat},
    s.cache = some (some i) →
    (genericAccountApply s args).versions.map (·.is_active) =
        s.versions.map (·.is_active)
    ∧ (genericAccountApply s args).cache = s.cache := by
  intro args
  induction args with
  | nil => exact fun s _ _ => ⟨rfl, rfl⟩
  | cons a t ih =>
      intro s i h
      have h1 := accountSetattr_of_cached h a.1 a.2
      have h2 := ih (accountSetattr s a.1 a.2) (h1.2.trans h)
      unfold genericAccountApply at h2 ⊢
      simp only [List.foldl_cons]
      exact ⟨h2.1.trans h1.1, h2.2.trans h1.2⟩

theorem new_limits_of_flags {s : AccountDAOState} {n : Nat}
    (hf : s.versions.map (·.is_active) = List.replicate n false ++ [true])
    (hc : s.cache = some (some n)) :
    (new_limits s).versions.map (·.is_active) =
        List.replicate (n + 1) false ++ [true]
    ∧ (new_limits s).cache = some (some (n + 1)) := by
  have hlen : s.versions.length = n + 1 := by
    have := congrArg List.length hf
    simpa using this
  have hn : s.versions[n]?.map (·.is_active) = some true := by
    rw [← List.getElem?_map, hf,
        List.getElem?_append_right (by simp : (List.replicate n false).length ≤ n)]
    simp
  obtain ⟨old, hold, hact⟩ := Option.map_eq_some'.mp hn
  unfold new_limits
  rw [getActiveLimits_of_cache hc]
  simp only [Option.some_bind, hold, Option.map_some']
  constructor
  · simp only [List.map_append, List.map_set, List.map_cons, List.map_nil]
    rw [hf, set_replicate_append, ← List.replicate_succ']
    rfl
  · simp [hlen]

theorem accountUpdate_step {s : AccountDAOState} {n : Nat}
    {args : List (AccField × Value)}
    (hf : s.versions.map (·.is_active) = List.replicate n false ++ [true])
    (hc : s.cache = some (some n)) (ht : touchesLimits args = true) :
    (accountUpdate s args).versions.map (·.is_active) =
        List.replicate (n + 1) false ++ [true]
    ∧ (accountUpdate s args).cache = some (some (n + 1)) := by
  have h1 := new_limits_of_flags hf hc
  have h2 := genericAccountApply_of_cached args (new_limits s) h1.2
  unfold accountUpdate
  rw [ht]
  simp only [if_pos]
  exact ⟨h2.1.trans h1.1, h2.2.trans h1.2⟩

theorem accountUpdate_fold :
    ∀ (calls : List (List (AccField × Value))) (s : AccountDAOState) (n : Nat),
    (∀ c ∈ calls, touchesLimits c = true) →
    s.versions.map (·.is_active) = List.replicate n false ++ [true] →
    s.cache = some (some n) →
    (calls.foldl accountUpdate s).versions.map (·.is_active) =
        List.replicate (n + calls.length) false ++ [true]
    ∧ (calls.foldl accountUpdate s).cache = some (some (n + calls.length)) := by
  intro calls
  induction calls with
  | nil => exact fun s n _ hf hc => ⟨by simpa using hf, by simpa using hc⟩
  | cons c rest ih =>
      intro s n hall hf hc
      have hstep := accountUpdate_step hf hc (hall c (by simp))
      have hrest := ih (accountUpdate s c) (n + 1)
        (fun d hd => hall d (by simp [hd])) hstep.1 hstep.2
      simp only [List.foldl_cons, List.length_cons]
      refine ⟨?_, ?_⟩
      · rw [hrest.1]; ring_nf
      · rw [hrest.2]; ring_nf

theorem counts_of_flags {vs : List AccountLimits} {n : Nat}
    (h : vs.map (·.is_active) = List.replicate n false ++ [true]) :
    vs.length = n + 1 ∧ activeCount vs = 1 ∧ inactiveCount vs = n := by
  refine ⟨by simpa using congrArg List.length h, ?_, ?_⟩
  · have ha : activeCount vs = (vs.map (·.is_active)).countP (fun b => b) := by
      unfold activeCount
      rw [← List.countP_eq_length_filter, List.countP_map]
      rfl
    rw [ha, h, countP_flags_true]
  · have hi : inactiveCount vs = (vs.map (·.is_active)).countP (fun b => !b) := by
      unfold inactiveCount
      rw [← List.countP_eq_length_filter, List.countP_map]
      rfl
    rw [hi, h, countP_flags_false]

/-- First update on a fresh account: one version row is created, active,
and becomes the cached resolution. -/
theorem accountUpdate_first (row : AccountRow) (now : Nat)
    {args : List (AccField × Value)} (ht : touchesLimits args = true) :
    (accountUpdate ⟨row, [], none, now⟩ args).versions.map (·.is_active) =
        List.replicate 0 false ++ [true]
    ∧ (accountUpdate ⟨row, [], none, now⟩ args).cache = some (some 0) := by
  have hnl : new_limits ⟨row, [], none, now⟩ =
      ⟨row, [freshLimits now], some (some 0), now⟩ := by
    simp [new_limits, getActiveLimits, findActive]
  have h2 := genericAccountApply_of_cached args
    (⟨row, [freshLimits now], some (some 0), now⟩ : AccountDAOState) rfl
  unfold accountUpdate
  rw [ht]
  simp only [if_pos, hnl]
  exact ⟨h2.1.trans (by simp [freshLimits]), h2.2⟩

/-! ## ExchangeRateDAO helper lemmas -/

theorem getActiveValue_of_cache {s : RateDAOState} {r : Option Nat}
    (h : s.cache = some r) : getActiveValue s = (s, r) := by
  simp [getActiveValue, h]

theorem getActiveValue_resolved (s : RateDAOState) :
    (getActiveValue s).1.cache = some (getActiveValue s).2 := by
  unfold getActiveValue
  cases h : s.cache <;> simp [h]

theorem getActiveValue_versions (s : RateDAOState) :
    (getActiveValue s).1.versions = s.versions := by
  unfold getActiveValue
  cases h : s.cache <;> simp [h]

theorem setValueCol_is_active (r : ExchangeRateValue) (col : ValueCol) (v : Value) :
    (setValueCol r col v).is_active = r.is_active := by
  cases col <;> rfl

theorem setOnCachedValue_flags (s : RateDAOState) (col : ValueCol) (v : Value) :
    (setOnCachedValue s col v).versions.map (·.is_active) =
      s.versions.map (·.is_active) := by
  unfold setOnCachedValue
  split
  · next i hc =>
      split
      · next r hr =>
          simp only [List.map_set, setValueCol_is_active]
          exact set_of_getElem_eq _ i _ (by rw [List.getElem?_map, hr]; rfl)
      · rfl
  · rfl

theorem setOnCachedValue_cache (s : RateDAOState) (col : ValueCol) (v : Value) :
    (setOnCachedValue s col v).cache = s.cache := by
  unfold setOnCachedValue
  split
  · split <;> rfl
  · rfl

theorem rateSetattr_of_cached {s : RateDAOState} {i : Nat}
    (h : s.cache = some (some i)) (f : RateField) (v : Value) :
    (rateSetattr s f v).versions.map (·.is_active) =
        s.versions.map (·.is_active)
    ∧ (rateSetattr s f v).cache = s.cache := by
  unfold rateSetattr
  split
  · rw [getActiveValue_of_cache h]
    simp only [h, Option.isSome_some, if_pos]
    exact ⟨setOnCachedValue_flags s _ v, (setOnCachedValue_cache s _ v).trans h⟩
  · exact ⟨rfl, rfl⟩

theorem genericRateApply_of_cached :
    ∀ (args : List (RateField × Value)) (s : RateDAOState) {i : Nat},
    s.cache = some (some i) →
    (genericRateApply s args).versions.map (·.is_active) =
        s.versions.map (·.is_active)
    ∧ (genericRateApply s args).cache = s.cache := by
  intro args
  induction args with
  | nil => exact fun s _ _ => ⟨rfl, rfl⟩
  | cons a t ih =>
      intro s i h
      have h1 := rateSetattr_of_cached h a.1 a.2
      have h2 := ih (rateSetattr s a.1 a.2) (h1.2.trans h)
      unfold genericRateApply at h2 ⊢
      simp only [List.foldl_cons]
      exact ⟨h2.1.trans h1.1, h2.2.trans h1.2⟩

theorem new_value_of_flags {s : RateDAOState} {n : Nat}
    (hf : s.versions.map (·.is_active) = List.replicate n false ++ [true])
    (hc : s.cache = some (some n)) :
    (new_value s).versions.map (·.is_active) =
        List.replicate (n + 1) false ++ [true]
    ∧ (new_value s).cache = some (some (n + 1)) := by
  have hlen : s.versions.length = n + 1 := by
    have := congrArg List.length hf
    simpa using this
  have hn : s.versions[n]?.map (·.is_active) = some true := by
    rw [← List.getElem?_map, hf,
        List.getElem?_append_right (by simp : (List.replicate n false).length ≤ n)]
    simp
  obtain ⟨old, hold, hact⟩ := Option.map_eq_some'.mp hn
  unfold new_value
  rw [getActiveValue_of_cache hc]
  simp only [Option.some_bind, hold, Option.map_some']
  constructor
  · simp only [List.map_append, List.map_set, List.map_cons, List.map_nil]
    rw [hf, set_replicate_append, ← List.replicate_succ']
    rfl
  · simp [hlen]

theorem rateUpdate_step {s : RateDAOState} {n : Nat}
    {args : List (RateField × Value)}
    (hf : s.versions.map (·.is_active) = List.replicate n false ++ [true])
    (hc : s.cache = some (some n)) (ht : touchesValue args = true) :
    (rateUpdate s args).versions.map (·.is_active) =
        List.replicate (n + 1) false ++ [true]
    ∧ (rateUpdate s args).cache = some (some (n + 1)) := by
  have h1 := new_value_of_flags hf hc
  have h2 := genericRateApply_of_cached args (new_value s) h1.2
  unfold rateUpdate
  rw [ht]
  simp only [if_pos]
  exact ⟨h2.1.trans h1.1, h2.2.trans h1.2⟩

theorem rateUpdate_fold :
    ∀ (calls : List (List (RateField × Value))) (s : RateDAOState) (n : Nat),
    (∀ c ∈ calls, touchesValue c = true) →
    s.versions.map (·.is_active) = List.replicate n false ++ [true] →
    s.cache = some (some n) →
    (calls.foldl rateUpdate s).versions.map (·.is_active) =
        List.replicate (n + calls.length) false ++ [true]
    ∧ (calls.foldl rateUpdate s).cache = some (some (n + calls.length)) := by
  intro calls
  induction calls with
  | nil => exact fun s n _ hf hc => ⟨by simpa using hf, by simpa using hc⟩
  | cons c rest ih =>
      intro s n hall hf hc
      have hstep := rateUpdate_step hf hc (hall c (by simp))
      have hrest := ih (rateUpdate s c) (n + 1)
        (fun d hd => hall d (by simp [hd])) hstep.1 hstep.2
      simp only [List.foldl_cons, List.length_cons]
      refine ⟨?_, ?_⟩
      · rw [hrest.1]; ring_nf
      · rw [hrest.2]; ring_nf

theorem counts_of_value_flags {vs : List ExchangeRateValue} {n : Nat}
    (h : vs.map (·.is_active) = List.replicate n false ++ [true]) :
    vs.length = n + 1 ∧ activeValueCount vs = 1 ∧ inactiveValueCount vs = n := by
  refine ⟨by simpa using congrArg List.length h, ?_, ?_⟩
  · have ha : activeValueCount vs = (vs.map (·.is_active)).countP (fun b => b) := by
      unfold activeValueCount
      rw [← List.countP_eq_length_filter, List.countP_map]
      rfl
    rw [ha, h, countP_flags_true]
  · have hi : inactiveValueCount vs = (vs.map (·.is_active)).countP (fun b => !b) := by
      unfold inactiveValueCount
      rw [← List.countP_eq_length_filter, List.countP_map]
      rfl
    rw [hi, h, countP_flags_false]

/-- First update on a fresh exchange rate: one value row is created,
active, and becomes the cached resolution. -/
theorem rateUpdate_first (row : ExchangeRateRow) (now : Nat)
    {args : List (RateField × Value)} (ht : touchesValue args = true) :
    (rateUpdate ⟨row, [], none, now⟩ args).versions.map (·.is_active) =
        List.replicate 0 false ++ [true]
    ∧ (rateUpdate ⟨row, [], none, now⟩ args).cache = some (some 0) := by
  have hnl : new_value ⟨row, [], none, now⟩ =
      ⟨row, [freshValue now], some (some 0), now⟩ := by
    simp [new_value, getActiveValue, findActiveValue]
  have h2 := genericRateApply_of_cached args
    (⟨row, [freshValue now], some (some 0), now⟩ : RateDAOState) rfl
  unfold rateUpdate
  rw [ht]
  simp only [if_pos, hnl]
  exact ⟨h2.1.trans (by simp [freshValue]), h2.2⟩

/-! ## ExchangeDAO helper lemmas -/

/-- Sequential rate assignments: each write goes through ExchangeDAO
setattr for rate, stopping at the first failure. -/
def setRates : ExchangeState → List String → Except String ExchangeState
  | s, [] => .ok s
  | s, nm :: rest =>
      match exchangeSetRate s nm with
      | .ok s1 => setRates s1 rest
      | .error e => .error e

/-- A flag pattern of the shape false-block-then-true pins down the
element at the block boundary. -/
theorem exists_true_at {α : Type} (f : α → Bool) {l : List α} {n : Nat}
    (h : l.map f = List.replicate n false ++ [true]) :
    ∃ x, l[n]? = some x ∧ f x = true := by
  have hn : l[n]?.map f = some true := by
    rw [← List.getElem?_map, h,
        List.getElem?_append_right (by simp : (List.replicate n false).length ≤ n)]
    simp
  obtain ⟨x, hx, hfx⟩ := Option.map_eq_some'.mp hn
  exact ⟨x, hx, hfx⟩

/-- When every association row belongs to this exchange, the query
predicate of getActiveEER coincides with the bare active flag. -/
theorem eer_pred_flags {s : ExchangeState}
    (hid : ∀ e ∈ s.eer_rows, e.exchange_id = s.exchange_id) :
    s.eer_rows.map (fun e => e.exchange_id == s.exchange_id && e.is_active) =
      s.eer_rows.map (·.is_active) :=
  List.map_congr_left (fun e he => by simp [hid e he])

/-- One successful rate assignment on an exchange whose association rows
follow the single-active pattern: the active row is flagged inactive and
one new active row for this exchange is appended. -/
theorem exchangeSetRate_step {s : ExchangeState} {n : Nat} {nm : String}
    {r : RateRow}
    (hres : exchangeRateGet s.rate_rows nm = some r)
    (hid : ∀ e ∈ s.eer_rows, e.exchange_id = s.exchange_id)
    (hf : s.eer_rows.map (·.is_active) = List.replicate n false ++ [true]) :
    ∃ s1, exchangeSetRate s nm = .ok s1
      ∧ s1.exchange_id = s.exchange_id
      ∧ s1.rate_rows = s.rate_rows
      ∧ (∀ e ∈ s1.eer_rows, e.exchange_id = s1.exchange_id)
      ∧ s1.eer_rows.map (·.is_active) = List.replicate (n + 1) false ++ [true] := by
  obtain ⟨e, he, heact⟩ := exists_true_at (fun e : EERRow => e.is_active) hf
  have hact : getActiveEER s = some n := by
    unfold getActiveEER
    exact findIdx?_of_map_flags _ _ n ((eer_pred_flags hid).trans hf)
  refine ⟨{ s with eer_rows :=
      s.eer_rows.set n { e with is_active := false } ++
        [⟨s.exchange_id, r.id, true⟩] }, ?_, rfl, rfl, ?_, ?_⟩
  · unfold exchangeSetRate
    rw [hres, hact]
    simp [deactivateEERAt, he]
  · intro x hx
    rcases List.mem_append.mp hx with hx1 | hx1
    · rcases List.mem_or_eq_of_mem_set hx1 with hx2 | hx2
      · exact hid x hx2
      · subst hx2
        exact hid e (List.getElem?_mem he)
    · simp only [List.mem_singleton] at hx1
      subst hx1
      rfl
  · simp only [List.map_append, List.map_set, List.map_cons, List.map_nil]
    rw [hf, set_replicate_append, ← List.replicate_succ']

theorem setRates_fold :
    ∀ (names : List String) (s : ExchangeState) (n : Nat),
    (∀ nm ∈ names, (exchangeRateGet s.rate_rows nm).isSome) →
    (∀ e ∈ s.eer_rows, e.exchange_id = s.exchange_id) →
    s.eer_rows.map (·.is_active) = List.replicate n false ++ [true] →
    ∃ s', setRates s names = .ok s'
      ∧ s'.exchange_id = s.exchange_id
      ∧ s'.rate_rows = s.rate_rows
      ∧ (∀ e ∈ s'.eer_rows, e.exchange_id = s'.exchange_id)
      ∧ s'.eer_rows.map (·.is_active) =
          List.replicate (n + names.length) false ++ [true] := by
  intro names
  induction names with
  | nil =>
      intro s n _ hid hf
      exact ⟨s, rfl, rfl, rfl, hid, by simpa using hf⟩
  | cons nm rest ih =>
      intro s n hres hid hf
      obtain ⟨r, hr⟩ := Option.isSome_iff_exists.mp (hres nm (by simp))
      obtain ⟨s1, hok, hxid, hrates, hid1, hf1⟩ :=
        exchangeSetRate_step hr hid hf
      obtain ⟨s', hok', hxid', hrates', hid', hf'⟩ :=
        ih s1 (n + 1) (fun x hx => hrates ▸ hres x (by simp [hx])) hid1 hf1
      refine ⟨s', ?_, hxid'.trans hxid, hrates'.trans hrates, hid', ?_⟩
      · unfold setRates
        rw [hok]
        exact hok'
      · rw [hf', List.length_cons,
            (by omega : n + 1 + rest.length = n + (rest.length + 1))]

theorem counts_of_eer {s : ExchangeState} {n : Nat}
    (hid : ∀ e ∈ s.eer_rows, e.exchange_id = s.exchange_id)
    (hf : s.eer_rows.map (·.is_active) = List.replicate n false ++ [true]) :
    s.eer_rows.length = n + 1 ∧ activeEERCount s = 1 ∧ inactiveEERCount s = n := by
  have heer : eerOf s = s.eer_rows := by
    unfold eerOf
    exact List.filter_eq_self.mpr (fun e he => by simp [hid e he])
  refine ⟨by simpa using congrArg List.length hf, ?_, ?_⟩
  · have ha : activeEERCount s = (s.eer_rows.map (·.is_active)).countP (fun b => b) := by
      unfold activeEERCount
      rw [heer, ← List.countP_eq_length_filter, List.countP_map]
      rfl
    rw [ha, hf, countP_flags_true]
  · have hi : inactiveEERCount s =
        (s.eer_rows.map (·.is_active)).countP (fun b => !b) := by
      unfold inactiveEERCount
      rw [heer, ← List.countP_eq_length_filter, List.countP_map]
      rfl
    rw [hi, hf, countP_flags_false]

/-- First successful rate assignment on an exchange with no association
rows: exactly one active row appears. -/
theorem exchangeSetRate_first {xid : Nat} {rates : List RateRow} {nm : String}
    {r : RateRow} (hres : exchangeRateGet rates nm = some r) :
    exchangeSetRate ⟨xid, rates, []⟩ nm =
      .ok ⟨xid, rates, [⟨xid, r.id, true⟩]⟩ := by
  unfold exchangeSetRate
  rw [hres]
  rfl

/-- new_limits always appends exactly one version row and leaves the
cache pointing at a row index. -/
theorem new_limits_length_cache (s : AccountDAOState) :
    (new_limits s).versions.length = s.versions.length + 1
    ∧ ∃ k, (new_limits s).cache = some (some k) := by
  unfold new_limits
  simp only
  split
  · refine ⟨?_, _, rfl⟩
    simp [getActiveLimits_versions]
  · refine ⟨?_, _, rfl⟩
    simp [getActiveLimits_versions]

/-- new_value always appends exactly one version row and leaves the
cache pointing at a row index. -/
theorem new_value_length_cache (s : RateDAOState) :
    (new_value s).versions.length = s.versions.length + 1
    ∧ ∃ k, (new_value s).cache = some (some k) := by
  unfold new_value
  simp only
  split
  · refine ⟨?_, _, rfl⟩
    simp [getActiveValue_versions]
  · refine ⟨?_, _, rfl⟩
    simp [getActiveValue_versions]

/-! ## Concrete fixtures -/

def row0 : AccountRow := ⟨.vstr "acct", .vnone, .vnone, .vnone, .vnone⟩

def acct0 : AccountDAOState := ⟨row0, [], none, 5⟩

def rrow0 : ExchangeRateRow := ⟨.vstr "USDCAD", .vnone⟩

def rate0 : RateDAOState := ⟨rrow0, [], none, 3⟩

def exch0 : ExchangeState := ⟨10, [⟨1, "R1"⟩, ⟨2, "R2"⟩], []⟩

/-! ## Claims -/

/-- C1: for every parent entity with a versioned group (Account limits,
ExchangeRate values, Exchange rate assignments), after any sequence of N
sequential writes to group fields (update calls touching the group for
the two scalar groups, successful rate assignments for the exchange),
exactly one version record per parent has is_active = true and the N - 1
others have is_active = false; the proof goes through the step lemmas
showing each write that finds an existing active version deactivates it
in the same operation in which the successor is created. -/
theorem c1_n_writes_single_active :
    (∀ (row : AccountRow) (now : Nat)
        (calls : List (List (AccField × Value))),
      calls ≠ [] → (∀ c ∈ calls, touchesLimits c = true) →
      (calls.foldl accountUpdate ⟨row, [], none, now⟩).versions.length
          = calls.length
      ∧ activeCount
          (calls.foldl accountUpdate ⟨row, [], none, now⟩).versions = 1
      ∧ inactiveCount
          (calls.foldl accountUpdate ⟨row, [], none, now⟩).versions
          = calls.length - 1)
    ∧ (∀ (row : ExchangeRateRow) (now : Nat)
        (calls : List (List (RateField × Value))),
      calls ≠ [] → (∀ c ∈ calls, touchesValue c = true) →
      (calls.foldl rateUpdate ⟨row, [], none, now⟩).versions.length
          = calls.length
      ∧ activeValueCount
          (calls.foldl rateUpdate ⟨row, [], none, now⟩).versions = 1
      ∧ inactiveValueCount
          (calls.foldl rateUpdate ⟨row, [], none, now⟩).versions
          = calls.length - 1)
    ∧ (∀ (xid : Nat) (rates : List RateRow) (names : List String),
      names ≠ [] → (∀ nm ∈ names, (exchangeRateGet rates nm).isSome) →
      ∃ s', setRates ⟨xid, rates, []⟩ names = .ok s'
        ∧ s'.eer_rows.length = names.length
        ∧ activeEERCount s' = 1
        ∧ inactiveEERCount s' = names.length - 1) := by
  refine ⟨?_, ?_, ?_⟩
  · intro row now calls hne hall
    match calls with
    | [] => exact absurd rfl hne
    | c :: rest =>
        have h1 := accountUpdate_first row now (hall c (by simp))
        have h2 := accountUpdate_fold rest _ 0
          (fun d hd => hall d (by simp [hd])) h1.1 h1.2
        have h3 := counts_of_flags h2.1
        simp only [List.foldl_cons, List.length_cons] at h3 ⊢
        exact ⟨by omega, h3.2.1, by omega⟩
  · intro row now calls hne hall
    match calls with
    | [] => exact absurd rfl hne
    | c :: rest =>
        have h1 := rateUpdate_first row now (hall c (by simp))
        have h2 := rateUpdate_fold rest _ 0
          (fun d hd => hall d (by simp [hd])) h1.1 h1.2
        have h3 := counts_of_value_flags h2.1
        simp only [List.foldl_cons, List.length_cons] at h3 ⊢
        exact ⟨by omega, h3.2.1, by omega⟩
  · intro xid rates names hne hall
    match names with
    | [] => exact absurd rfl hne
    | nm :: rest =>
        obtain ⟨r, hr⟩ := Option.isSome_iff_exists.mp (hall nm (by simp))
        have hfirst := @exchangeSetRate_first xid rates nm r hr
        obtain ⟨s', hok, hxid, hrates, hid, hf⟩ :=
          setRates_fold rest ⟨xid, rates, [⟨xid, r.id, true⟩]⟩ 0
            (fun x hx => hall x (by simp [hx]))
            (by intro e he; simp only [List.mem_singleton] at he; rw [he])
            rfl
        have h3 := counts_of_eer hid hf
        simp only [List.length_cons]
        refine ⟨s', ?_, by omega, h3.2.1, by omega⟩
        unfold setRates
        rw [hfirst]
        exact hok

/-- Witness for C1 at concrete inputs: two limits updates on a fresh
account, two value updates on a fresh exchange rate, and two rate
assignments on a fresh exchange. -/
theorem c1_n_writes_single_active_witness :
    (([[(AccField.upper_limit, Value.vint 100)],
       [(AccField.lower_limit, Value.vint (-20))]].foldl accountUpdate
        ⟨row0, [], none, 5⟩).versions.length = 2
     ∧ activeCount
        ([[(AccField.upper_limit, Value.vint 100)],
          [(AccField.lower_limit, Value.vint (-20))]].foldl accountUpdate
          ⟨row0, [], none, 5⟩).versions = 1
     ∧ inactiveCount
        ([[(AccField.upper_limit, Value.vint 100)],
          [(AccField.lower_limit, Value.vint (-20))]].foldl accountUpdate
          ⟨row0, [], none, 5⟩).versions = 1)
    ∧ (([[(RateField.rate, Value.vint 7)],
         [(RateField.rate, Value.vint 9)]].foldl rateUpdate
          ⟨rrow0, [], none, 3⟩).versions.length = 2
       ∧ activeValueCount
          ([[(RateField.rate, Value.vint 7)],
            [(RateField.rate, Value.vint 9)]].foldl rateUpdate
            ⟨rrow0, [], none, 3⟩).versions = 1
       ∧ inactiveValueCount
          ([[(RateField.rate, Value.vint 7)],
            [(RateField.rate, Value.vint 9)]].foldl rateUpdate
            ⟨rrow0, [], none, 3⟩).versions = 1)
    ∧ (∃ s', setRates ⟨10, [⟨1, "R1"⟩, ⟨2, "R2"⟩], []⟩ ["R1", "R2"] = .ok s'
        ∧ s'.eer_rows.length = 2
        ∧ activeEERCount s' = 1
        ∧ inactiveEERCount s' = 1) :=
  ⟨c1_n_writes_single_active.1 row0 5 _ (by decide) (by decide),
   c1_n_writes_single_active.2.1 rrow0 3 _ (by decide) (by decide),
   c1_n_writes_single_active.2.2 10 [⟨1, "R1"⟩, ⟨2, "R2"⟩] ["R1", "R2"]
     (by decide) (by decide)⟩

/-- C3: for every update call on an entity with a versioned group, if
any field of the versioned-field set is present in the arguments then
exactly one new version record is created (the new_limits or new_value
call preceding generic field application), regardless of how many
versioned fields are set; and the concrete account scenario: two
sequential updates setting upper_limit then lower_limit yield exactly
two version records total, the final active one holding both values. -/
theorem c3_one_version_per_update :
    (∀ (s : AccountDAOState) (args : List (AccField × Value)),
      touchesLimits args = true →
      (accountUpdate s args).versions.length = s.versions.length + 1)
    ∧ (∀ (s : RateDAOState) (args : List (RateField × Value)),
      touchesValue args = true →
      (rateUpdate s args).versions.length = s.versions.length + 1)
    ∧ ((accountUpdate (accountUpdate acct0 [(.upper_limit, .vint 100)])
          [(.lower_limit, .vint (-20))]).versions.length = 2
       ∧ activeCount (accountUpdate
            (accountUpdate acct0 [(.upper_limit, .vint 100)])
            [(.lower_limit, .vint (-20))]).versions = 1
       ∧ (accountGetattr (accountUpdate
            (accountUpdate acct0 [(.upper_limit, .vint 100)])
            [(.lower_limit, .vint (-20))]) .upper_limit).2 = .vint 100
       ∧ (accountGetattr (accountUpdate
            (accountUpdate acct0 [(.upper_limit, .vint 100)])
            [(.lower_limit, .vint (-20))]) .lower_limit).2 = .vint (-20)) := by
  refine ⟨?_, ?_, by decide⟩
  · intro s args ht
    have h1 := new_limits_length_cache s
    obtain ⟨k, hk⟩ := h1.2
    have h2 := genericAccountApply_of_cached args (new_limits s) hk
    unfold accountUpdate
    rw [ht]
    simp only [if_pos]
    have := congrArg List.length h2.1
    simp only [List.length_map] at this
    rw [this, h1.1]
  · intro s args ht
    have h1 := new_value_length_cache s
    obtain ⟨k, hk⟩ := h1.2
    have h2 := genericRateApply_of_cached args (new_value s) hk
    unfold rateUpdate
    rw [ht]
    simp only [if_pos]
    have := congrArg List.length h2.1
    simp only [List.length_map] at this
    rw [this, h1.1]

/-- Witness for C3 at concrete inputs: one update touching two limits
fields at once still creates exactly one new version. -/
theorem c3_one_version_per_update_witness :
    (accountUpdate acct0
      [(AccField.upper_limit, Value.vint 1),
       (AccField.lower_limit, Value.vint (-1))]).versions.length
        = acct0.versions.length + 1
    ∧ (rateUpdate rate0 [(RateField.rate, Value.vint 7)]).versions.length
        = rate0.versions.length + 1 :=
  ⟨c3_one_version_per_update.1 acct0 _ (by decide),
   c3_one_version_per_update.2.1 rate0 _ (by decide)⟩

/-! ## Transition characterisation helpers -/

theorem getActiveLimits_now (s : AccountDAOState) :
    (getActiveLimits s).1.now = s.now := by
  unfold getActiveLimits
  cases h : s.cache <;> simp [h]

theorem getActiveValue_now (s : RateDAOState) :
    (getActiveValue s).1.now = s.now := by
  unfold getActiveValue
  cases h : s.cache <;> simp [h]

/-- new_limits on a state whose active version resolves to the row old
at index i: old is deactivated in place and the copied successor is
appended. -/
theorem new_limits_spec {s : AccountDAOState} {i : Nat} {old : AccountLimits}
    (h1 : (getActiveLimits s).2 = some i)
    (h2 : (getActiveLimits s).1.versions[i]? = some old) :
    (new_limits s).versions =
      ((getActiveLimits s).1.versions.set i { old with is_active := false })
        ++ [copyLimits old (freshLimits s.now)] := by
  unfold new_limits
  simp only [h1, Option.some_bind, h2, Option.map_some', getActiveLimits_now]

/-- new_value on a state whose active version resolves to the row old
at index i: old is deactivated in place and a fresh successor (no
column copied) is appended. -/
theorem new_value_spec {s : RateDAOState} {i : Nat} {old : ExchangeRateValue}
    (h1 : (getActiveValue s).2 = some i)
    (h2 : (getActiveValue s).1.versions[i]? = some old) :
    (new_value s).versions =
      ((getActiveValue s).1.versions.set i { old with is_active := false })
        ++ [freshValue s.now] := by
  unfold new_value
  simp only [h1, Option.some_bind, h2, Option.map_some', getActiveValue_now]

theorem setOnCachedLimits_length (s : AccountDAOState) (col : LimitsCol) (v : Value) :
    (setOnCachedLimits s col v).versions.length = s.versions.length := by
  have := congrArg List.length (setOnCachedLimits_flags s col v)
  simpa using this

theorem setOnCachedValue_length (s : RateDAOState) (col : ValueCol) (v : Value) :
    (setOnCachedValue s col v).versions.length = s.versions.length := by
  have := congrArg List.length (setOnCachedValue_flags s col v)
  simpa using this

/-- C2 (corrected): the claim that expiry_time is not copied forward,
and that the rate-value group copies its fields, both fail on the code.
At a concrete input, new_limits copies expiry_time (the attrs_to_copy
list removes only effective_time), and new_value copies nothing: after
an active limits row with expiry_time = 99 the appended successor also
carries expiry_time = 99, while after an active value row with value =
7 the appended successor carries a null value. -/
theorem c2_copy_counterexample :
    ((new_limits (accountUpdate acct0
        [(.upper_limit, .vint 100), (.limits_expiry_time, .vtime 99)])
      ).versions.map (·.expiry_time)) = [.vtime 99, .vtime 99]
    ∧ ((new_value (rateUpdate rate0 [(.rate, .vint 7)])
      ).versions.map (·.value)) = [.vint 7, .vnone] := by
  decide

/-- C2 (amended): in the limits-group transition every limits_map
column except effective_time is copied from the active version onto its
successor, expiry_time included; effective_time of the successor is set
fresh from the operation clock and the successor is created active; in
the rate-value transition no column is copied at all, the successor is
entirely fresh; in both, the superseded row is flagged inactive in the
same operation. -/
theorem c2_copy_semantics :
    (∀ (s : AccountDAOState) (i : Nat) (old : AccountLimits),
      (getActiveLimits s).2 = some i →
      (getActiveLimits s).1.versions[i]? = some old →
      (new_limits s).versions.getLast? =
        some ⟨old.upper_limit, old.lower_limit, .vtime s.now,
              old.expiry_time, true⟩
      ∧ (new_limits s).versions[i]? = some { old with is_active := false })
    ∧ (∀ (s : RateDAOState) (i : Nat) (old : ExchangeRateValue),
      (getActiveValue s).2 = some i →
      (getActiveValue s).1.versions[i]? = some old →
      (new_value s).versions.getLast? =
        some ⟨.vnone, .vtime s.now, .vnone, true⟩
      ∧ (new_value s).versions[i]? = some { old with is_active := false }) := by
  constructor
  · intro s i old h1 h2
    have hsp := new_limits_spec h1 h2
    obtain ⟨hlt, -⟩ := List.getElem?_eq_some_iff.mp h2
    constructor
    · rw [hsp, List.getLast?_concat]
      rfl
    · rw [hsp, List.getElem?_append_left (by simpa using hlt),
          List.getElem?_set_self (by simpa using hlt)]
  · intro s i old h1 h2
    have hsp := new_value_spec h1 h2
    obtain ⟨hlt, -⟩ := List.getElem?_eq_some_iff.mp h2
    constructor
    · rw [hsp, List.getLast?_concat]
      rfl
    · rw [hsp, List.getElem?_append_left (by simpa using hlt),
          List.getElem?_set_self (by simpa using hlt)]

/-- Witness for the amended C2 at a concrete input: one prior active
limits row and one prior active value row. -/
theorem c2_copy_semantics_witness :
    ((new_limits (accountUpdate acct0
        [(.upper_limit, .vint 100), (.limits_expiry_time, .vtime 99)])
      ).versions.getLast? =
        some ⟨.vint 100, .vnone, .vtime 5, .vtime 99, true⟩
     ∧ (new_limits (accountUpdate acct0
        [(.upper_limit, .vint 100), (.limits_expiry_time, .vtime 99)])
      ).versions[0]? =
        some ⟨.vint 100, .vnone, .vtime 5, .vtime 99, false⟩)
    ∧ ((new_value (rateUpdate rate0 [(.rate, .vint 7)])).versions.getLast? =
        some ⟨.vnone, .vtime 3, .vnone, true⟩
     ∧ (new_value (rateUpdate rate0 [(.rate, .vint 7)])).versions[0]? =
        some ⟨.vint 7, .vtime 3, .vnone, false⟩) :=
  ⟨c2_copy_semantics.1 (accountUpdate acct0
      [(.upper_limit, .vint 100), (.limits_expiry_time, .vtime 99)])
      0 ⟨.vint 100, .vnone, .vtime 5, .vtime 99, true⟩ (by decide) (by decide),
   c2_copy_semantics.2 (rateUpdate rate0 [(.rate, .vint 7)])
      0 ⟨.vint 7, .vtime 3, .vnone, true⟩ (by decide) (by decide)⟩

/-- C4 (code bug): the write path of the rate reassignment works — after
assigning R1 and then R2, the prior association row is inactive and a
new active row points at R2 — but the subsequent read returns R1, not
R2: the source passes the is_active comparison as the isouter argument
of Table.join, so the select is an outer join whose only condition is
the exchange id, never restricted to the active association nor joined
on the rate id, and fetchone() yields the first exchange_rate row. -/
theorem c4_rate_read_bug :
    exchangeSetRate exch0 "R1" =
      .ok ⟨10, [⟨1, "R1"⟩, ⟨2, "R2"⟩], [⟨10, 1, true⟩]⟩
    ∧ exchangeSetRate ⟨10, [⟨1, "R1"⟩, ⟨2, "R2"⟩], [⟨10, 1, true⟩]⟩ "R2" =
      .ok ⟨10, [⟨1, "R1"⟩, ⟨2, "R2"⟩], [⟨10, 1, false⟩, ⟨10, 2, true⟩]⟩
    ∧ exchangeGetRate
        ⟨10, [⟨1, "R1"⟩, ⟨2, "R2"⟩], [⟨10, 1, false⟩, ⟨10, 2, true⟩]⟩ =
      .ok "R1" :=
  ⟨rfl, rfl, rfl⟩

/-- C5 (corrected): at a concrete input the claim fails.  After a first
update created one (now committed) active version with upper_limit =
50, a later direct field write — a separate logical write with no
pending version of its own — creates no new version record and mutates
the committed version's content in place to upper_limit = 100. -/
theorem c5_append_only_counterexample :
    (accountSetattr (accountUpdate acct0 [(.upper_limit, .vint 50)])
        .upper_limit (.vint 100)).versions.length = 1
    ∧ (accountUpdate acct0 [(.upper_limit, .vint 50)]).versions.map
        (·.upper_limit) = [.vint 50]
    ∧ (accountSetattr (accountUpdate acct0 [(.upper_limit, .vint 50)])
        .upper_limit (.vint 100)).versions.map (·.upper_limit) =
        [.vint 100] := by
  decide

/-- C5 (amended): a field write to an indirect field creates a version
record exactly when the parent has no active version; when an active
version exists, the write creates nothing and mutates that active
version's content in place (inside update() the pending version created
by new_limits/new_value is the one mutated); the superseded version is
changed only in its is_active flag when its successor is created. -/
theorem c5_version_lifecycle :
    (∀ (s : AccountDAOState) (f : AccField) (col : LimitsCol) (v : Value),
      limits_map f = some col → (getActiveLimits s).2 = none →
      (accountSetattr s f v).versions.length = s.versions.length + 1)
    ∧ (∀ (s : AccountDAOState) (f : AccField) (col : LimitsCol) (v : Value)
        (i : Nat) (r : AccountLimits),
      limits_map f = some col → (getActiveLimits s).2 = some i →
      (getActiveLimits s).1.versions[i]? = some r →
      (accountSetattr s f v).versions =
        s.versions.set i (setLimitsCol r col v))
    ∧ (∀ (s : AccountDAOState) (i : Nat) (old : AccountLimits),
      (getActiveLimits s).2 = some i →
      (getActiveLimits s).1.versions[i]? = some old →
      (new_limits s).versions[i]? = some { old with is_active := false })
    ∧ (∀ (s : RateDAOState) (f : RateField) (col : ValueCol) (v : Value),
      value_map f = some col → (getActiveValue s).2 = none →
      (rateSetattr s f v).versions.length = s.versions.length + 1)
    ∧ (∀ (s : RateDAOState) (f : RateField) (col : ValueCol) (v : Value)
        (i : Nat) (r : ExchangeRateValue),
      value_map f = some col → (getActiveValue s).2 = some i →
      (getActiveValue s).1.versions[i]? = some r →
      (rateSetattr s f v).versions =
        s.versions.set i (setValueCol r col v))
    ∧ (∀ (s : RateDAOState) (i : Nat) (old : ExchangeRateValue),
      (getActiveValue s).2 = some i →
      (getActiveValue s).1.versions[i]? = some old →
      (new_value s).versions[i]? = some { old with is_active := false }) := by
  refine ⟨?_, ?_, ?_, ?_, ?_, ?_⟩
  · intro s f col v hmap hres
    unfold accountSetattr
    simp only [hmap, hres, Option.isSome_none, Bool.false_eq_true, if_false]
    rw [setOnCachedLimits_length]
    have h1 := new_limits_length_cache (getActiveLimits s).1
    rw [h1.1, getActiveLimits_versions]
  · intro s f col v i r hmap hres hr
    have hcache : (getActiveLimits s).1.cache = some (some i) := by
      rw [getActiveLimits_resolved, hres]
    unfold accountSetattr
    simp only [hmap, hres, Option.isSome_some, if_true]
    have hr2 : s.versions[i]? = some r := by
      rw [← getActiveLimits_versions s]
      exact hr
    unfold setOnCachedLimits
    simp only [hcache, getActiveLimits_versions, hr2]
  · intro s i old h1 h2
    have hsp := new_limits_spec h1 h2
    obtain ⟨hlt, -⟩ := List.getElem?_eq_some_iff.mp h2
    rw [hsp, List.getElem?_append_left (by simpa using hlt),
        List.getElem?_set_self (by simpa using hlt)]
  · intro s f col v hmap hres
    unfold rateSetattr
    simp only [hmap, hres, Option.isSome_none, Bool.false_eq_true, if_false]
    rw [setOnCachedValue_length]
    have h1 := new_value_length_cache (getActiveValue s).1
    rw [h1.1, getActiveValue_versions]
  · intro s f col v i r hmap hres hr
    have hcache : (getActiveValue s).1.cache = some (some i) := by
      rw [getActiveValue_resolved, hres]
    unfold rateSetattr
    simp only [hmap, hres, Option.isSome_some, if_true]
    have hr2 : s.versions[i]? = some r := by
      rw [← getActiveValue_versions s]
      exact hr
    unfold setOnCachedValue
    simp only [hcache, getActiveValue_versions, hr2]
  · intro s i old h1 h2
    have hsp := new_value_spec h1 h2
    obtain ⟨hlt, -⟩ := List.getElem?_eq_some_iff.mp h2
    rw [hsp, List.getElem?_append_left (by simpa using hlt),
        List.getElem?_set_self (by simpa using hlt)]

/-- Witness for the amended C5 at concrete inputs: a first write on a
fresh parent creates a version; a write with an active version mutates
in place; the superseded row changes only its flag. -/
theorem c5_version_lifecycle_witness :
    ((accountSetattr acct0 .upper_limit (.vint 50)).versions.length
        = acct0.versions.length + 1
     ∧ (accountSetattr (accountUpdate acct0 [(.upper_limit, .vint 50)])
          .upper_limit (.vint 100)).versions =
        (accountUpdate acct0 [(.upper_limit, .vint 50)]).versions.set 0
          (setLimitsCol ⟨.vint 50, .vnone, .vtime 5, .vnone, true⟩
            .upper_limit (.vint 100))
     ∧ (new_limits (accountUpdate acct0 [(.upper_limit, .vint 50)])
          ).versions[0]? =
        some ⟨.vint 50, .vnone, .vtime 5, .vnone, false⟩)
    ∧ ((rateSetattr rate0 .rate (.vint 7)).versions.length
        = rate0.versions.length + 1
     ∧ (rateSetattr (rateUpdate rate0 [(.rate, .vint 7)])
          .rate (.vint 9)).versions =
        (rateUpdate rate0 [(.rate, .vint 7)]).versions.set 0
          (setValueCol ⟨.vint 7, .vtime 3, .vnone, true⟩ .value (.vint 9))
     ∧ (new_value (rateUpdate rate0 [(.rate, .vint 7)])).versions[0]? =
        some ⟨.vint 7, .vtime 3, .vnone, false⟩) :=
  ⟨⟨c5_version_lifecycle.1 acct0 .upper_limit .upper_limit (.vint 50)
      (by decide) (by decide),
    c5_version_lifecycle.2.1 (accountUpdate acct0 [(.upper_limit, .vint 50)])
      .upper_limit .upper_limit (.vint 100) 0
      ⟨.vint 50, .vnone, .vtime 5, .vnone, true⟩ (by decide) (by decide)
      (by decide),
    c5_version_lifecycle.2.2.1 (accountUpdate acct0 [(.upper_limit, .vint 50)])
      0 ⟨.vint 50, .vnone, .vtime 5, .vnone, true⟩ (by decide) (by decide)⟩,
   ⟨c5_version_lifecycle.2.2.2.1 rate0 .rate .value (.vint 7)
      (by decide) (by decide),
    c5_version_lifecycle.2.2.2.2.1 (rateUpdate rate0 [(.rate, .vint 7)])
      .rate .value (.vint 9) 0 ⟨.vint 7, .vtime 3, .vnone, true⟩
      (by decide) (by decide) (by decide),
    c5_version_lifecycle.2.2.2.2.2 (rateUpdate rate0 [(.rate, .vint 7)])
      0 ⟨.vint 7, .vtime 3, .vnone, true⟩ (by decide) (by decide)⟩⟩

/-- C6 (code bug): reading a versioned field on a parent with no version
ever created returns None for Account limits fields and ExchangeRate
value fields, as claimed; but the Exchange rate field does not behave
alike: with no association row and an empty exchange_rate table the
read raises (fetchone() returns None and is subscripted), and with
exchange_rate rows present the outer join returns the first rate row's
name instead of an absent value. -/
theorem c6_no_version_read :
    (accountGetattr acct0 .upper_limit).2 = .vnone
    ∧ (accountGetattr acct0 .lower_limit).2 = .vnone
    ∧ (accountGetattr acct0 .limits_expiry_time).2 = .vnone
    ∧ (rateGetattr rate0 .rate).2 = .vnone
    ∧ (rateGetattr rate0 .expiry_time).2 = .vnone
    ∧ exchangeGetRate ⟨10, [], []⟩ =
        .error "TypeError: NoneType object is not subscriptable"
    ∧ exchangeGetRate exch0 = .ok "R1" :=
  ⟨rfl, rfl, rfl, rfl, rfl, rfl, rfl⟩

/-- C7: filter called with any versioned-field criterion raises the
configuration error for every input, including an empty value, on
AccountDAO, ExchangeRateDAO and ExchangeDAO alike; criteria touching
only direct or foreign-key fields are delegated to the generic filter. -/
theorem c7_filter_rejects_versioned :
    (∀ (rows : List AccountRow) (args : List (AccField × Value)),
      touchesLimits args = true →
      accountFilter rows args = .error "Limits fields not implemented in filter")
    ∧ (∀ (rows : List AccountRow) (args : List (AccField × Value)),
      touchesLimits args = false →
      accountFilter rows args = .ok (genericAccountFilter rows args))
    ∧ (∀ (rows : List ExchangeRateRow) (args : List (RateField × Value)),
      touchesValue args = true →
      rateFilter rows args = .error "Value fields not implemented in filter")
    ∧ (∀ (rows : List ExchangeRateRow) (args : List (RateField × Value)),
      touchesValue args = false →
      rateFilter rows args = .ok (genericRateFilter rows args))
    ∧ (∀ (rows : List ExchangeRow) (args : List (ExchField × Value)),
      args.any (fun a => a.1 == ExchField.rate) = true →
      exchangeFilter rows args = .error "Rate field not implemented in filter")
    ∧ (∀ (rows : List ExchangeRow) (args : List (ExchField × Value)),
      args.any (fun a => a.1 == ExchField.rate) = false →
      exchangeFilter rows args = .ok (genericExchangeFilter rows args)) := by
  refine ⟨?_, ?_, ?_, ?_, ?_, ?_⟩ <;>
    (intro rows args h;
     simp [accountFilter, rateFilter, exchangeFilter, h])

/-- Witness for C7 at concrete inputs, including the empty-value
filter on a versioned field. -/
theorem c7_filter_rejects_versioned_witness :
    accountFilter [] [(.upper_limit, .vnone)] =
        .error "Limits fields not implemented in filter"
    ∧ accountFilter [row0] [(.name, .vstr "acct")] =
        .ok (genericAccountFilter [row0] [(.name, .vstr "acct")])
    ∧ rateFilter [] [(.rate, .vnone)] =
        .error "Value fields not implemented in filter"
    ∧ rateFilter [rrow0] [(.name, .vstr "USDCAD")] =
        .ok (genericRateFilter [rrow0] [(.name, .vstr "USDCAD")])
    ∧ exchangeFilter [] [(.rate, .vnone)] =
        .error "Rate field not implemented in filter"
    ∧ exchangeFilter [] [(.source_account, .vstr "a")] =
        .ok (genericExchangeFilter [] [(.source_account, .vstr "a")]) :=
  ⟨c7_filter_rejects_versioned.1 [] _ (by decide),
   c7_filter_rejects_versioned.2.1 [row0] _ (by decide),
   c7_filter_rejects_versioned.2.2.1 [] _ (by decide),
   c7_filter_rejects_versioned.2.2.2.1 [rrow0] _ (by decide),
   c7_filter_rejects_versioned.2.2.2.2.1 [] _ (by decide),
   c7_filter_rejects_versioned.2.2.2.2.2 [] _ (by decide)⟩

/-- C8 (corrected): at a concrete input with two active limits rows for
the same account, resolving the active version succeeds and silently
returns the first active row — its value is served by a read — instead
of surfacing an InvariantViolation; no such error exists in the code,
which resolves with a plain first-match query. -/
theorem c8_two_active_counterexample :
    activeCount [(⟨.vint 1, .vnone, .vtime 0, .vnone, true⟩ : AccountLimits),
                 ⟨.vint 2, .vnone, .vtime 0, .vnone, true⟩] = 2
    ∧ (getActiveLimits ⟨row0,
        [⟨.vint 1, .vnone, .vtime 0, .vnone, true⟩,
         ⟨.vint 2, .vnone, .vtime 0, .vnone, true⟩], none, 0⟩).2 = some 0
    ∧ (accountGetattr ⟨row0,
        [⟨.vint 1, .vnone, .vtime 0, .vnone, true⟩,
         ⟨.vint 2, .vnone, .vtime 0, .vnone, true⟩], none, 0⟩
        .upper_limit).2 = .vint 1 := by
  decide

/-- C8 (amended): when more than one version row of the same parent is
active, every resolution of the active version silently returns the
first matching row — the first-match query always succeeds and there is
no InvariantViolation error path — for Account limits, ExchangeRate
values and Exchange associations alike. -/
theorem c8_first_active_silent :
    (∀ (row : AccountRow) (vs : List AccountLimits) (now : Nat),
      2 ≤ activeCount vs →
      (getActiveLimits ⟨row, vs, none, now⟩).2 = vs.findIdx? (·.is_active)
      ∧ (vs.findIdx? (·.is_active)).isSome)
    ∧ (∀ (row : ExchangeRateRow) (vs : List ExchangeRateValue) (now : Nat),
      2 ≤ activeValueCount vs →
      (getActiveValue ⟨row, vs, none, now⟩).2 = vs.findIdx? (·.is_active)
      ∧ (vs.findIdx? (·.is_active)).isSome)
    ∧ (∀ (s : ExchangeState),
      2 ≤ activeEERCount s →
      getActiveEER s = s.eer_rows.findIdx?
          (fun e => e.exchange_id == s.exchange_id && e.is_active)
      ∧ (s.eer_rows.findIdx?
          (fun e => e.exchange_id == s.exchange_id && e.is_active)).isSome) := by
  refine ⟨?_, ?_, ?_⟩
  · intro row vs now h
    refine ⟨by simp [getActiveLimits, findActive], ?_⟩
    rw [List.findIdx?_isSome, List.any_eq_true]
    have hne : vs.filter (·.is_active) ≠ [] := by
      intro hnil
      rw [activeCount, hnil] at h
      simp at h
    obtain ⟨x, hx⟩ := List.exists_mem_of_ne_nil _ hne
    obtain ⟨hmem, hact⟩ := List.mem_filter.mp hx
    exact ⟨x, hmem, hact⟩
  · intro row vs now h
    refine ⟨by simp [getActiveValue, findActiveValue], ?_⟩
    rw [List.findIdx?_isSome, List.any_eq_true]
    have hne : vs.filter (·.is_active) ≠ [] := by
      intro hnil
      rw [activeValueCount, hnil] at h
      simp at h
    obtain ⟨x, hx⟩ := List.exists_mem_of_ne_nil _ hne
    obtain ⟨hmem, hact⟩ := List.mem_filter.mp hx
    exact ⟨x, hmem, hact⟩
  · intro s h
    refine ⟨rfl, ?_⟩
    rw [List.findIdx?_isSome, List.any_eq_true]
    have hne : (eerOf s).filter (·.is_active) ≠ [] := by
      intro hnil
      rw [activeEERCount, hnil] at h
      simp at h
    obtain ⟨x, hx⟩ := List.exists_mem_of_ne_nil _ hne
    obtain ⟨hmem, hact⟩ := List.mem_filter.mp hx
    obtain ⟨hmem2, hid⟩ := List.mem_filter.mp hmem
    exact ⟨x, hmem2, by simp [hid, hact]⟩

/-- Witness for the amended C8: two active rows in each store. -/
theorem c8_first_active_silent_witness :
    ((getActiveLimits ⟨row0,
        [⟨.vint 3, .vnone, .vtime 0, .vnone, true⟩,
         ⟨.vint 4, .vnone, .vtime 0, .vnone, true⟩], none, 1⟩).2 =
      ([(⟨.vint 3, .vnone, .vtime 0, .vnone, true⟩ : AccountLimits),
        ⟨.vint 4, .vnone, .vtime 0, .vnone, true⟩].findIdx? (·.is_active))
     ∧ (([(⟨.vint 3, .vnone, .vtime 0, .vnone, true⟩ : AccountLimits),
        ⟨.vint 4, .vnone, .vtime 0, .vnone, true⟩].findIdx?
          (·.is_active)).isSome))
    ∧ ((getActiveValue ⟨rrow0,
        [⟨.vint 3, .vtime 0, .vnone, true⟩,
         ⟨.vint 4, .vtime 0, .vnone, true⟩], none, 1⟩).2 =
      ([(⟨.vint 3, .vtime 0, .vnone, true⟩ : ExchangeRateValue),
        ⟨.vint 4, .vtime 0, .vnone, true⟩].findIdx? (·.is_active))
     ∧ (([(⟨.vint 3, .vtime 0, .vnone, true⟩ : ExchangeRateValue),
        ⟨.vint 4, .vtime 0, .vnone, true⟩].findIdx? (·.is_active)).isSome))
    ∧ (getActiveEER ⟨7, [], [⟨7, 1, true⟩, ⟨7, 2, true⟩]⟩ =
        ([(⟨7, 1, true⟩ : EERRow), ⟨7, 2, true⟩].findIdx?
          (fun e => e.exchange_id == 7 && e.is_active))
     ∧ (([(⟨7, 1, true⟩ : EERRow), ⟨7, 2, true⟩].findIdx?
          (fun e => e.exchange_id == 7 && e.is_active)).isSome)) :=
  ⟨c8_first_active_silent.1 row0 _ 1 (by decide),
   c8_first_active_silent.2.1 rrow0 _ 1 (by decide),
   c8_first_active_silent.2.2 ⟨7, [], [⟨7, 1, true⟩, ⟨7, 2, true⟩]⟩ (by decide)⟩

/-- C9 (corrected): at a concrete input, Exchange rate-assignment
resolution does not use a captured version: resolving against the
association store before and after a concurrent supersession returns
different rows (no capture exists on ExchangeState), while an
AccountDAO instance that captured version 0 keeps returning it even
after the store gained an active successor. -/
theorem c9_exchange_reresolve_counterexample :
    getActiveEER ⟨10, [⟨1, "R1"⟩], [⟨10, 1, true⟩]⟩ = some 0
    ∧ getActiveEER ⟨10, [⟨1, "R1"⟩], [⟨10, 1, false⟩, ⟨10, 2, true⟩]⟩ = some 1
    ∧ (getActiveLimits ⟨row0,
        [⟨.vint 1, .vnone, .vtime 0, .vnone, false⟩,
         ⟨.vint 2, .vnone, .vtime 1, .vnone, true⟩], some (some 0), 1⟩).2 =
        some 0 := by
  decide

/-- C9 (amended): AccountDAO and ExchangeRateDAO capture the active
version on the instance — the first resolution stores its result in the
cache, and once the cache is set every later resolution returns the
captured identity whatever the version store now contains; ExchangeDAO
keeps no capture: its resolution is recomputed from the current
association rows on every call, so a store change between two reads of
one operation changes the result. -/
theorem c9_capture_semantics :
    (∀ (s : AccountDAOState) (r : Option Nat) (vs2 : List AccountLimits),
      s.cache = some r →
      (getActiveLimits { s with versions := vs2 }).2 = r)
    ∧ (∀ (s : AccountDAOState),
      (getActiveLimits s).1.cache = some ((getActiveLimits s).2))
    ∧ (∀ (s : RateDAOState) (r : Option Nat) (vs2 : List ExchangeRateValue),
      s.cache = some r →
      (getActiveValue { s with versions := vs2 }).2 = r)
    ∧ (∀ (s : RateDAOState),
      (getActiveValue s).1.cache = some ((getActiveValue s).2))
    ∧ (getActiveEER ⟨7, [⟨3, "A"⟩, ⟨4, "B"⟩], [⟨7, 3, true⟩]⟩ = some 0
      ∧ getActiveEER ⟨7, [⟨3, "A"⟩, ⟨4, "B"⟩],
          [⟨7, 3, false⟩, ⟨7, 4, true⟩]⟩ = some 1) := by
  refine ⟨?_, getActiveLimits_resolved, ?_, getActiveValue_resolved, by decide⟩
  · intro s r vs2 h
    simp [getActiveLimits, h]
  · intro s r vs2 h
    simp [getActiveValue, h]

/-- Witness for the amended C9: a cached instance resolution survives a
store swap. -/
theorem c9_capture_semantics_witness :
    (getActiveLimits { (⟨row0, [], some (some 0), 1⟩ : AccountDAOState) with
        versions := ([] : List AccountLimits) }).2 = some 0
    ∧ (getActiveValue { (⟨rrow0, [], some (some 0), 1⟩ : RateDAOState) with
        versions := ([] : List ExchangeRateValue) }).2 = some 0 :=
  ⟨c9_capture_semantics.1 ⟨row0, [], some (some 0), 1⟩ (some 0) [] rfl,
   c9_capture_semantics.2.2.1 ⟨rrow0, [], some (some 0), 1⟩ (some 0) [] rfl⟩

/-- C10: assigning Exchange's rate to a name that does not resolve to
an existing ExchangeRate fails through the initial ExchangeRateDAO.get
lookup, which the source performs before touching the association
table, so for every prior association state the operation returns the
lookup error and produces no state: the previously active association
row, if any, stays as it was and no row is inserted. -/
theorem c10_failed_rate_lookup_no_mutation :
    ∀ (s : ExchangeState) (name : String),
      exchangeRateGet s.rate_rows name = none →
      exchangeSetRate s name = .error "NotFound" := by
  intro s name h
  unfold exchangeSetRate
  rw [h]

/-- Witness for C10: assigning a nonexistent rate name on an exchange
with an active association errors out. -/
theorem c10_failed_rate_lookup_no_mutation_witness :
    exchangeRateGet [(⟨1, "R1"⟩ : RateRow), ⟨2, "R2"⟩] "R9" = none
    ∧ exchangeSetRate ⟨10, [⟨1, "R1"⟩, ⟨2, "R2"⟩], [⟨10, 1, true⟩]⟩ "R9" =
        .error "NotFound" :=
  ⟨by decide,
   c10_failed_rate_lookup_no_mutation
     ⟨10, [⟨1, "R1"⟩, ⟨2, "R2"⟩], [⟨10, 1, true⟩]⟩ "R9" (by decide)⟩

end Ripplebase
